import Mathlib

/-!
Shallow embedding of the bicit core (track analyzer and template
substitution engine) and proofs about it.  Rust `f64` values are modelled
as exact rationals (`Rat`), `chrono::Duration` as whole seconds (`Int`),
and timestamps as integer seconds.  External collaborators (the geodesic
distance of the `geo` crate and the map renderer) are passed in as
function parameters.
-/

namespace Bicit

/-- Rust `f64::round`: round half away from zero, modelled on rationals.
Rounding half up (floor of q + 1/2) agrees with Rust on nonnegative
arguments; negatives are handled by symmetry. -/
def rustRound (q : Rat) : Rat :=
  if q < 0 then -((⌊-q + 1 / 2⌋ : Int) : Rat) else ((⌊q + 1 / 2⌋ : Int) : Rat)

/-- Rust `str::trim`, restricted to ASCII whitespace: drop whitespace
from both ends. -/
def rsTrim (s : String) : String :=
  String.mk (((s.data.dropWhile Char.isWhitespace).reverse.dropWhile
    Char.isWhitespace).reverse)

/-- Rust `str::split(c)` on a character list: splits at every separator,
keeping empty pieces. -/
def splitChar (c : Char) : List Char → List (List Char)
  | [] => [[]]
  | x :: xs =>
    if x = c then [] :: splitChar c xs
    else
      match splitChar c xs with
      | [] => [[x]]
      | h :: t => (x :: h) :: t

/-- Rust `str::split(c)` on strings. -/
def splitStr (c : Char) (s : String) : List String :=
  (splitChar c s.data).map String.mk

/-- Split a character list at every character satisfying `p`, keeping
empty pieces (Rust `str::split` with a predicate). -/
def splitPred (p : Char → Bool) : List Char → List (List Char)
  | [] => [[]]
  | x :: xs =>
    if p x then [] :: splitPred p xs
    else
      match splitPred p xs with
      | [] => [[x]]
      | h :: t => (x :: h) :: t

/-- Decimal digits of a natural number, most significant first; `fuel`
bounds the recursion structurally. -/
def natDigitsAux (fuel n : Nat) : List Char :=
  match fuel with
  | 0 => []
  | f + 1 =>
    if n < 10 then [Char.ofNat (48 + n)]
    else natDigitsAux f (n / 10) ++ [Char.ofNat (48 + n % 10)]

/-- Decimal representation of a natural number. -/
def natRepr (n : Nat) : String := String.mk (natDigitsAux (n + 1) n)

/-- Decimal representation of an integer. -/
def intRepr (i : Int) : String :=
  (if i < 0 then "-" else "") ++ natRepr i.natAbs

/-- Whether `pre` is a prefix of `s` (Rust `str::starts_with`). -/
def strStarts (pre s : String) : Bool := pre.data.isPrefixOf s.data

/-- One sample of the elevation profile (source struct `ElevPoint`,
fields `e` elevation and `d` cumulative decimated distance). -/
structure ElevPoint where
  e : Rat
  d : Rat
deriving DecidableEq, Repr, Inhabited

/-- A single GPX track point: latitude and longitude in degrees, optional
elevation in meters, optional timestamp in whole seconds. -/
structure GpxPoint where
  lat : Rat
  lon : Rat
  elevation : Option Rat
  time : Option Int
deriving DecidableEq, Repr, Inhabited

/-- A GPX track: optional name plus an ordered list of segments, each an
ordered list of points. -/
structure Track where
  name : Option String
  segments : List (List GpxPoint)
deriving Repr, Inhabited

/-- A parsed GPX document: its ordered list of tracks. -/
structure Gpx where
  tracks : List Track
deriving Repr, Inhabited

/-- The aggregate produced by `Context::load` (source struct
`ContextData`). -/
structure ContextData where
  track_name : String
  distance : Rat
  speed : Rat
  speed_max : Rat
  speed_moving : Rat
  time : Int
  time_moving : Int
  uphill : Rat
  downhill : Rat
  elevation : List ElevPoint
  elevation_max : Rat
  elevation_min : Rat
  coords : List (Rat × Rat)
deriving Repr, Inhabited

/-- Geodesic distance between two points; the `geo` crate's
`Geodesic.distance` is external, so it is a parameter of the model. -/
abbrev DistFn := GpxPoint → GpxPoint → Rat

/-- Rust `Iterator::step_by(10)`, via a skip counter so the recursion is
structural: an element is kept when the counter is 0, and the counter
restarts at 9 after a kept element. -/
def stepBy10Aux : List α → Nat → List α
  | [], _ => []
  | x :: xs, 0 => x :: stepBy10Aux xs 9
  | _ :: xs, k + 1 => stepBy10Aux xs k

/-- Rust `Iterator::step_by(10)`: keep indices 0, 10, 20, .... -/
def stepBy10 (l : List α) : List α := stepBy10Aux l 0

/-- The decimated point pairs of one segment: `step_by(10)` zipped with
`step_by(10).skip(1)`. -/
def pairsOf (l : List α) : List (α × α) :=
  (stepBy10 l).zip ((stepBy10 l).drop 1)

/-- The mutable locals of `Context::load`, gathered into one record and
folded over the decimated pairs. -/
structure LoadAcc where
  tot_distance : Rat
  cur_distance : Rat
  tot_time : Int
  tot_moving_time : Int
  uphill : Rat
  downhill : Rat
  speed_max : Rat
  elevation_max : Rat
  elevation_min : Rat
  elev : List ElevPoint
  coords : List (Rat × Rat)
deriving Repr, Inhabited

/-- Initial values of the mutable locals of `Context::load`. -/
def initAcc : LoadAcc :=
  { tot_distance := 0, cur_distance := 0, tot_time := 0, tot_moving_time := 0
    uphill := 0, downhill := 0, speed_max := 0
    elevation_max := 0, elevation_min := 99999, elev := [], coords := [] }

/-- The body of the decimated-pair loop in `Context::load`. -/
def pairStep (dist : DistFn) (acc : LoadAcc) (pq : GpxPoint × GpxPoint) : LoadAcc :=
  let d := dist pq.1 pq.2
  let acc := { acc with cur_distance := acc.cur_distance + d }
  let acc :=
    match pq.1.time, pq.2.time with
    | some t1, some t2 =>
      let ptime := t2 - t1
      if ptime > 0 then
        let acc := { acc with tot_time := acc.tot_time + ptime }
        let speed := rustRound d / (ptime : Rat) * (18 / 5)
        let acc :=
          if speed > 1 / 2 then
            { acc with tot_moving_time := acc.tot_moving_time + ptime }
          else acc
        if speed > acc.speed_max then { acc with speed_max := speed } else acc
      else acc
    | _, _ => acc
  match pq.1.elevation, pq.2.elevation with
  | some e1, some e2 =>
    let de := e2 - e1
    let acc :=
      if de > 0 then { acc with uphill := acc.uphill + de }
      else { acc with downhill := acc.downhill - de }
    let acc := if e1 > acc.elevation_max then { acc with elevation_max := e1 } else acc
    let acc := if e1 < acc.elevation_min then { acc with elevation_min := e1 } else acc
    { acc with elev := acc.elev ++ [⟨e1, acc.cur_distance⟩] }
  | _, _ => acc

/-- Per-segment work of `Context::load`: record every raw coordinate
(as lon, lat) and fold the decimated pairs. -/
def segStep (dist : DistFn) (acc : LoadAcc) (points : List GpxPoint) : LoadAcc :=
  let acc := { acc with coords := acc.coords ++ points.map (fun p => (p.lon, p.lat)) }
  (pairsOf points).foldl (pairStep dist) acc

/-- Geodesic length of one linestring: the sum of the distances of
consecutive raw points (`Geodesic.length` on a linestring). -/
def lineLength (dist : DistFn) (points : List GpxPoint) : Rat :=
  (points.zip points.tail).foldl (fun a pq => a + dist pq.1 pq.2) 0

/-- Per-track work of `Context::load`: add the full-resolution geodesic
length of the track's multilinestring, then fold every segment. -/
def trackStep (dist : DistFn) (acc : LoadAcc) (t : Track) : LoadAcc :=
  let acc := { acc with
    tot_distance := acc.tot_distance + ((t.segments.map (lineLength dist)).sum) }
  t.segments.foldl (segStep dist) acc

/-- Rust `str::chars().count()` is the length of the character list. -/
def charCount (s : String) : Nat := s.data.length

/-- Source `Context::truncate_ellipsis`. -/
def truncate_ellipsis (s : String) (max_chars : Nat) : String :=
  if max_chars = 0 then ""
  else if charCount s ≤ max_chars then s
  else String.mk (s.data.take (max_chars - 1)) ++ "…"

/-- Modelled from Rust std `Path::file_name`: the last path component,
`none` for an empty path or a path ending in `..`; `.` components are
skipped. -/
def rsFileName (p : String) : Option String :=
  let segs := (splitStr '/' p).filter (fun s => s ≠ "" && s ≠ ".")
  match segs.getLast? with
  | none => none
  | some l => if l = ".." then none else some l

/-- Modelled from Rust std `Path::file_stem`: the file name up to (not
including) its final dot, except that a name with no dot, or a name whose
only dot is the leading one, is returned whole. -/
def rsFileStem (p : String) : Option String :=
  (rsFileName p).map (fun f =>
    let cs := f.data
    match cs with
    | [] => f
    | c0 :: rest =>
      if (c0 :: rest).contains '.' then
        if c0 = '.' && ¬ rest.contains '.' then f
        else
          let idx := (List.range cs.length).filter (fun i => cs.getD i ' ' = '.')
          match idx.getLast? with
          | none => f
          | some i => String.mk (cs.take i)
      else f)

/-- Source `Context::compute_track_name`: the first track-level name that
is present, trimmed; kept only if non-empty, then truncated to 32 chars;
otherwise the file stem, defaulting to "track". -/
def compute_track_name (gpx : Gpx) (filename : String) : String :=
  let from_track :=
    (((gpx.tracks.filterMap Track.name).head?.map rsTrim).filter
        (fun s => s ≠ "")).map (fun s => truncate_ellipsis s 32)
  match from_track with
  | some name => name
  | none => ((rsFileStem filename).filter (fun s => s ≠ "")).getD "track"

/-- Source `Context::load`, given a parsed GPX document: fold every track
and compute the aggregate averages. -/
def loadStats (dist : DistFn) (gpx : Gpx) (filename : String) : ContextData :=
  let track_name := compute_track_name gpx filename
  let acc := gpx.tracks.foldl (trackStep dist) initAcc
  let speed :=
    if acc.tot_time > 0 then rustRound acc.tot_distance / (acc.tot_time : Rat) * (18 / 5)
    else 0
  let speed_moving :=
    if acc.tot_moving_time > 0 then
      rustRound acc.tot_distance / (acc.tot_moving_time : Rat) * (18 / 5)
    else 0
  { track_name := track_name
    distance := acc.tot_distance
    speed := speed
    speed_max := acc.speed_max
    speed_moving := speed_moving
    time := acc.tot_time
    time_moving := acc.tot_moving_time
    uphill := acc.uphill
    downhill := acc.downhill
    elevation := acc.elev
    elevation_max := acc.elevation_max
    elevation_min := acc.elevation_min
    coords := acc.coords }

/-- Decimal digits to a natural number. -/
def digitsToNat (cs : List Char) : Nat :=
  cs.foldl (fun a c => a * 10 + (c.toNat - 48)) 0

/-- Modelled from Rust `str::parse::<f64>` restricted to finite decimal
literals (optional sign, digits, optional fraction, optional exponent);
the non-finite literals `inf` and `NaN` are treated as unparsable. -/
def parseF64 (s : String) : Option Rat :=
  let cs := s.data
  let signAndRest : Rat × List Char :=
    match cs with
    | '+' :: r => (1, r)
    | '-' :: r => (-1, r)
    | _ => (1, cs)
  let sign := signAndRest.1
  let cs1 := signAndRest.2
  let intPart := cs1.takeWhile Char.isDigit
  let rest := cs1.dropWhile Char.isDigit
  let fracAndRest : List Char × List Char :=
    match rest with
    | '.' :: r => (r.takeWhile Char.isDigit, r.dropWhile Char.isDigit)
    | _ => ([], rest)
  let fracPart := fracAndRest.1
  let rest2 := fracAndRest.2
  if intPart.isEmpty && fracPart.isEmpty then none
  else
    let mantissa : Rat :=
      sign * ((digitsToNat intPart : Rat) +
        (digitsToNat fracPart : Rat) / ((10 ^ fracPart.length : Nat) : Rat))
    match rest2 with
    | [] => some mantissa
    | e :: r3 =>
      if e = 'e' || e = 'E' then
        let esignAndRest : Int × List Char :=
          match r3 with
          | '+' :: t => (1, t)
          | '-' :: t => (-1, t)
          | _ => (1, r3)
        let eDig := esignAndRest.2.takeWhile Char.isDigit
        let r5 := esignAndRest.2.dropWhile Char.isDigit
        if eDig.isEmpty || !r5.isEmpty then none
        else
          let scale : Rat := ((10 ^ digitsToNat eDig : Nat) : Rat)
          some (if esignAndRest.1 < 0 then mantissa / scale else mantissa * scale)
      else none

/-- The path descriptor of the source (`InputPath`); the field `pfx` is
named `prefix` in the source, the leading drawing-command token. -/
structure InputPath where
  height : Rat
  length : Rat
  ss : String
  pfx : String
deriving DecidableEq, Repr, Inhabited

/-- Rust `it[j].parse::<f64>().unwrap()`: an out-of-range index or a
parse failure is a panic, modelled as `Except.error`. -/
def indexParse (it : List String) (j : Nat) : Except String Rat :=
  match it.get? j with
  | none => .error "index out of bounds"
  | some s =>
    match parseF64 s with
    | some v => pure v
    | none => .error "invalid float literal"

/-- Source `InputPath::new`.  The function returns `Ok` in the source but
panics internally (an `assert!` on the first token and unwrapped indexing
and parses); every such panic is modelled as `Except.error`. -/
def newInputPath (path : String) : Except String InputPath := do
  let pieces := splitStr ' ' path
  let pfx ←
    match pieces.get? 0 with
    | none => pure ""
    | some s =>
      if s = "m" || s = "M" then pure s
      else Except.error "assertion failed: first path token must be m or M"
  match pieces.get? 1 with
  | none => pure { height := 0, length := 0, ss := "", pfx := pfx }
  | some s1 =>
    let it := splitStr ',' s1
    let sy ← indexParse it 1
    let sx ← indexParse it 0
    match pieces.get? 2 with
    | none => pure { height := 0, length := 0, ss := s1, pfx := pfx }
    | some s2 =>
      let it2 := splitStr ',' s2
      let y2 ← indexParse it2 1
      let height := if pfx = "m" then y2 else y2 - sy
      let x2 ← indexParse it2 0
      let length := if pfx = "m" then x2 else x2 - sx
      pure { height := height, length := length, ss := s1, pfx := pfx }

/-- Round half to even, the rounding used by Rust fixed-precision float
formatting. -/
def roundHalfEvenInt (q : Rat) : Int :=
  let f := ⌊q⌋
  let r := q - (f : Rat)
  if r < 1 / 2 then f
  else if 1 / 2 < r then f + 1
  else if f % 2 = 0 then f else f + 1

/-- Zero-pad a natural number to a given width. -/
def natPad (n : Nat) (w : Nat) : String :=
  let s := natRepr n
  String.mk (List.replicate (w - s.length) '0') ++ s

/-- Modelled from Rust float formatting with fixed precision, applied to
the exact rational value. -/
def fmtFixed (q : Rat) (prec : Nat) : String :=
  let n := roundHalfEvenInt (q * ((10 ^ prec : Nat) : Rat))
  let sgn := if n < 0 then "-" else ""
  let a := n.natAbs
  if prec = 0 then sgn ++ natRepr a
  else sgn ++ natRepr (a / 10 ^ prec) ++ "." ++ natPad (a % 10 ^ prec) prec

/-- Rust `{:02}` padding of a signed integer. -/
def intPad2 (i : Int) : String :=
  if 0 ≤ i && i < 10 then "0" ++ intRepr i else intRepr i

/-- Modelled from the `hhmmss` crate: zero-padded `HH:MM:SS` of a whole
number of seconds, using Rust truncating division. -/
def durHhmmss (t : Int) : String :=
  intPad2 (Int.tdiv (Int.tdiv t 60) 60) ++ ":" ++
    intPad2 (Int.tmod (Int.tdiv t 60) 60) ++ ":" ++ intPad2 (Int.tmod t 60)

/-- Source `Context::get_string`: the formatted value for a recognized
identifier, `none` otherwise or when no data is loaded. -/
def getString (data : Option ContextData) (k : String) : Option String :=
  match data with
  | none => none
  | some d =>
    if k = "value_track_name" then some d.track_name
    else if k = "value_distance" then some (fmtFixed (d.distance / 1000) 0 ++ "km")
    else if k = "value_speed" then some (fmtFixed d.speed 1 ++ "km/h")
    else if k = "value_speed_max" then some (fmtFixed d.speed_max 1 ++ "km/h")
    else if k = "value_speed_moving" then some (fmtFixed d.speed_moving 1 ++ "km/h")
    else if k = "value_uphill" then some (fmtFixed d.uphill 0 ++ "m")
    else if k = "value_downhill" then some (fmtFixed d.downhill 0 ++ "m")
    else if k = "value_elevation_max" then some (fmtFixed d.elevation_max 0 ++ "m")
    else if k = "value_elevation_min" then some (fmtFixed d.elevation_min 0 ++ "m")
    else if k = "value_time" then some (durHhmmss d.time)
    else if k = "value_moving_time" then some (durHhmmss d.time_moving)
    else none

/-- Rendering of a rational into the synthesized path string; stands for
Rust float `Display` in the model. -/
def ratStr (q : Rat) : String :=
  (if q.num < 0 then "-" else "") ++ natRepr q.num.natAbs ++
    (if q.den = 1 then "" else "/" ++ natRepr q.den)

/-- Source `Context::get_path`: the synthesized elevation path for
`path_elevation`, built from the scaled profile samples. -/
def getPath (data : Option ContextData) (k : String) (inp : InputPath) : Option String :=
  if k = "path_elevation" then
    data.map (fun d =>
      let el_width := max (d.elevation_max - d.elevation_min) 100
      let el_offset := d.elevation_min
      let el_factor := inp.height / el_width
      let scaled := d.elevation.map (fun v =>
        ElevPoint.mk ((v.e - el_offset) * el_factor) (v.d * (inp.length / d.distance)))
      let res := scaled.foldl
        (fun st v =>
          ((v.d, v.e),
            st.2 ++ ["l " ++ ratStr (v.d - st.1.1) ++ " " ++ ratStr (v.e - st.1.2)]))
        (((0 : Rat), (0 : Rat)), ([] : List String))
      let s2 := String.intercalate " " res.2
      inp.pfx ++ " " ++ inp.ss ++ " " ++ s2 ++ " l 0 " ++ ratStr (-res.1.2))
  else none

/-- An RGBA color (models `galileo::Color`). -/
structure GColor where
  r : Nat
  g : Nat
  b : Nat
  a : Nat
deriving DecidableEq, Repr, Inhabited

/-- Value of a hexadecimal digit, case-insensitive. -/
def hexVal (c : Char) : Option Nat :=
  if '0' ≤ c && c ≤ '9' then some (c.toNat - 48)
  else if 'a' ≤ c && c ≤ 'f' then some (c.toNat - 87)
  else if 'A' ≤ c && c ≤ 'F' then some (c.toNat - 55)
  else none

/-- A character is an ASCII hexadecimal digit. -/
def isHexDig (c : Char) : Bool := (hexVal c).isSome

/-- Two hexadecimal digits as a byte value. -/
def hexByte (c1 c2 : Char) : Option Nat := do
  pure ((← hexVal c1) * 16 + (← hexVal c2))

/-- Modelled from galileo `Color::try_from_hex`: accepts exactly
`#RRGGBB` (alpha 255) or `#RRGGBBAA`, case-insensitive. -/
def tryFromHex (s : String) : Option GColor :=
  match s.data with
  | '#' :: rest =>
    match rest with
    | [c1, c2, c3, c4, c5, c6] => do
      pure ⟨← hexByte c1 c2, ← hexByte c3 c4, ← hexByte c5 c6, 255⟩
    | [c1, c2, c3, c4, c5, c6, c7, c8] => do
      pure ⟨← hexByte c1 c2, ← hexByte c3 c4, ← hexByte c5 c6, ← hexByte c7 c8⟩
    | _ => none
  | _ => none

/-- First index at which `needle` occurs in `hay` (Rust `str::find`). -/
def findSubAux (hay needle : List Char) (i : Nat) : Option Nat :=
  match hay with
  | [] => if needle.isEmpty then some i else none
  | _ :: t =>
    if needle.isPrefixOf hay then some i else findSubAux t needle (i + 1)

/-- Source `Template::extract_hex_stroke_from_style`: find `stroke:`,
trim, strip `#`, take the contiguous run of hex digits, and accept it
only when it is exactly 6 or 8 digits long. -/
def extract_hex_stroke_from_style (style : String) : Option String :=
  match findSubAux style.data "stroke:".data 0 with
  | none => none
  | some idx =>
    let after := (style.data.drop (idx + 7)).dropWhile Char.isWhitespace
    match after with
    | '#' :: rest =>
      let run := rest.takeWhile isHexDig
      if run.length = 6 || run.length = 8 then some ("#" ++ String.mk run)
      else none
    | _ => none

/-- A structural event of the markup document, the unit the
`quick_xml`-driven pass rewrites.  `other` stands for every event kind
the pass copies through the wildcard arm (end tags, comments, CData,
declarations). -/
inductive XmlEvent where
  | start (name : String) (attrs : List (String × String))
  | empty (name : String) (attrs : List (String × String))
  | text (s : String)
  | other (raw : String)
deriving DecidableEq, Repr, Inhabited

/-- Source `Template::get_attribute`: the first attribute with the given
key. -/
def getAttribute (attrs : List (String × String)) (name : String) : Option String :=
  (attrs.find? (fun a => a.1 = name)).map Prod.snd

/-- Source `Template::extract_track_color_from_template`: scan the whole
document for an element whose id is `path_elevation` and read its color
from the `stroke` attribute or from a `stroke:` declaration in `style`. -/
def extractTrackColor : List XmlEvent → Option GColor
  | [] => none
  | ev :: rest =>
    let attrsOpt : Option (List (String × String)) :=
      match ev with
      | .start _ attrs => some attrs
      | .empty _ attrs => some attrs
      | _ => none
    match attrsOpt with
    | none => extractTrackColor rest
    | some attrs =>
      if getAttribute attrs "id" = some "path_elevation" then
        let fromStroke :=
          match getAttribute attrs "stroke" with
          | some stroke =>
            if strStarts "#" stroke then tryFromHex stroke else none
          | none => none
        match fromStroke with
        | some c => some c
        | none =>
          match (getAttribute attrs "style").bind
              (fun style => (extract_hex_stroke_from_style style).bind tryFromHex) with
          | some c => some c
          | none => extractTrackColor rest
      else extractTrackColor rest

/-- Source struct `SvgMetrics`. -/
structure SvgMetrics where
  svg_px_w : Rat
  svg_px_h : Rat
  viewbox_w : Rat
  viewbox_h : Rat
deriving DecidableEq, Repr, Inhabited

/-- Source `parse_svg_length_to_px`: leading numeric literal and an
optional unit suffix, converted at 96 px per inch. -/
def parse_svg_length_to_px (s : String) : Option Rat :=
  let t := rsTrim s
  if t = "" then none
  else
    let cs := t.data
    let numPart := cs.takeWhile (fun c => c.isDigit || c = '.' || c = '-')
    if numPart.isEmpty then none
    else
      match parseF64 (String.mk numPart) with
      | none => none
      | some v =>
        let unit := rsTrim (String.mk (cs.drop numPart.length))
        if unit = "" || unit = "px" then some v
        else if unit = "mm" then some (v * 96 / (254 / 10))
        else if unit = "cm" then some (v * 96 / (254 / 100))
        else if unit = "in" then some (v * 96)
        else if unit = "pt" then some (v * 96 / 72)
        else none

/-- Source `parse_viewbox`: four numbers separated by whitespace or
commas. -/
def parse_viewbox (s : String) : Option (Rat × Rat × Rat × Rat) :=
  let parts := ((splitPred (fun c => c.isWhitespace || c = ',') s.data).map
    String.mk).filter (fun p => p ≠ "")
  match parts with
  | [a, b, c, d] => do
    pure (← parseF64 a, ← parseF64 b, ← parseF64 c, ← parseF64 d)
  | _ => none

/-- Rust `as u32` on a float value: truncate toward zero, saturating. -/
def f64ToU32 (q : Rat) : Nat :=
  if q ≤ 0 then 0 else min (⌊q⌋).toNat (2 ^ 32 - 1)

/-- Source `image_pixels`: logical units to absolute pixels through the
document scale, rounded and clamped to at least 1. -/
def image_pixels (m : SvgMetrics) (wUnits hUnits : Rat) : Nat × Nat :=
  let scale_x := m.svg_px_w / m.viewbox_w
  let scale_y := m.svg_px_h / m.viewbox_h
  (f64ToU32 (max (rustRound (wUnits * scale_x)) 1),
   f64ToU32 (max (rustRound (hUnits * scale_y)) 1))

/-- The three `RefCell` fields of the source `Context`: the memoized map
asset and its key. -/
structure MapState where
  href : Option String
  size : Option (Nat × Nat)
  color : Option GColor
deriving DecidableEq, Repr, Inhabited

/-- The map renderer (`render_track_map_href`) is an external
collaborator; `none` models its error result. -/
abbrev RenderFn := List (Rat × Rat) → Nat → Nat → Option GColor → Option String

/-- Source `Context::build_map`: render and fill all three memo cells;
`none` when there is no track data or the renderer fails (in which case
the source leaves the cells untouched). -/
def build_map (render : RenderFn) (data : Option ContextData) (w h : Nat)
    (c : Option GColor) : Option MapState :=
  match data with
  | none => none
  | some d =>
    match render d.coords w h c with
    | none => none
    | some href => some ⟨some href, some (w, h), c⟩

/-- The `needs_render` condition of `Context::get_image`. -/
def needs_render (st : MapState) (w h : Nat) (c : Option GColor) : Bool :=
  st.href.isNone ||
    (match st.size with
     | none => true
     | some wh => wh.1 ≠ w || wh.2 ≠ h) ||
    st.color ≠ c

/-- Source `Context::get_image`, with the interior mutability of the
memo cells made explicit as state passing. -/
def get_image (render : RenderFn) (data : Option ContextData) (st : MapState)
    (k : String) (w h : Nat) (c : Option GColor) : Option String × MapState :=
  match data with
  | none => (none, st)
  | some _ =>
    if needs_render st w h c then
      match build_map render data w h c with
      | none => (none, st)
      | some st2 => (if k = "image_map" then st2.href else none, st2)
    else
      (if k = "image_map" then st.href else none, st)

/-- Source `Template::handle_xml`.  The `path` arm unwraps
`InputPath::new`, so a descriptor-parse panic aborts the whole pass;
that abort is the `Except.error` case. -/
def handle_xml (render : RenderFn) (data : Option ContextData) (st : MapState)
    (name : String) (attrs : List (String × String))
    (metrics : Option SvgMetrics) (track_color : Option GColor) :
    Except String (Option String × MapState) :=
  match getAttribute attrs "id" with
  | none => .ok (none, st)
  | some id =>
    if name = "tspan" then .ok (getString data id, st)
    else if name = "path" then
      match getAttribute attrs "d" with
      | none => .ok (none, st)
      | some pathd =>
        match newInputPath pathd with
        | .error msg => .error msg
        | .ok inp => .ok (getPath data id inp, st)
    else if name = "image" then
      match getAttribute attrs "width" with
      | none => .ok (none, st)
      | some wd =>
        match getAttribute attrs "height" with
        | none => .ok (none, st)
        | some hd =>
          match parseF64 wd with
          | none => .ok (none, st)
          | some wUnits =>
            match parseF64 hd with
            | none => .ok (none, st)
            | some hUnits =>
              let px : Nat × Nat :=
                match metrics with
                | some m => image_pixels m wUnits hUnits
                | none =>
                  let aspect := max (wUnits / hUnits) (1 / 10000)
                  (1000, f64ToU32 (max (rustRound ((1000 : Rat) / aspect)) 1))
              let color_override := if id = "image_map" then track_color else none
              .ok (get_image render data st id px.1 px.2 color_override)
    else .ok (none, st)

/-- The `svg` root-element arm of `apply_context_xml`: establish the
document metrics once from width, height and viewBox. -/
def svgMetricsOf (metrics : Option SvgMetrics) (attrs : List (String × String)) :
    Option SvgMetrics :=
  if metrics.isSome then metrics
  else
    match getAttribute attrs "width", getAttribute attrs "height" with
    | some svg_w, some svg_h =>
      let svg_px_w := parse_svg_length_to_px svg_w
      let svg_px_h := parse_svg_length_to_px svg_h
      let vb :=
        match (getAttribute attrs "viewBox").bind parse_viewbox with
        | some v => v
        | none => (0, 0, svg_px_w.getD 1, svg_px_h.getD 1)
      match svg_px_w, svg_px_h with
      | some pw, some ph => some ⟨pw, ph, vb.2.2.1, vb.2.2.2⟩
      | _, _ => none
    | _, _ => none

/-- The event loop of `Template::apply_context_xml`, one step per event;
`out` is the writer's output so far. -/
def applyGo (render : RenderFn) (data : Option ContextData) :
    List XmlEvent → MapState → Option String → Option SvgMetrics →
    Option GColor → List XmlEvent → Except String (List XmlEvent × MapState)
  | [], st, _, _, _, out => .ok (out, st)
  | ev :: rest, st, change_text, metrics, track_color, out =>
    match ev with
    | .start name attrs =>
      if name = "svg" then
        applyGo render data rest st change_text (svgMetricsOf metrics attrs)
          track_color (out ++ [ev])
      else if name = "tspan" then
        match handle_xml render data st name attrs metrics track_color with
        | .error msg => .error msg
        | .ok (ct2, st2) =>
          applyGo render data rest st2 ct2 metrics track_color (out ++ [ev])
      else
        applyGo render data rest st change_text metrics track_color (out ++ [ev])
    | .empty name attrs =>
      if name = "path" then
        match handle_xml render data st name attrs metrics track_color with
        | .error msg => .error msg
        | .ok (pd, st2) =>
          match pd with
          | some pd =>
            let attrs2 := attrs.filter (fun a => a.1 ≠ "d") ++ [("d", pd)]
            applyGo render data rest st2 change_text metrics track_color
              (out ++ [.empty "path" attrs2])
          | none =>
            applyGo render data rest st2 change_text metrics track_color (out ++ [ev])
      else if name = "image" then
        match handle_xml render data st name attrs metrics track_color with
        | .error msg => .error msg
        | .ok (pd, st2) =>
          match pd with
          | some pd =>
            let attrs2 := (attrs.filter
              (fun a => a.1 ≠ "xlink:href" && a.1 ≠ "sodipodi:absref")) ++
              [("xlink:href", pd)]
            applyGo render data rest st2 change_text metrics track_color
              (out ++ [.empty "image" attrs2])
          | none =>
            applyGo render data rest st2 change_text metrics track_color (out ++ [ev])
      else
        applyGo render data rest st change_text metrics track_color (out ++ [ev])
    | .text s =>
      match change_text with
      | some r =>
        applyGo render data rest st none metrics track_color (out ++ [.text r])
      | none =>
        applyGo render data rest st none metrics track_color (out ++ [.text s])
    | .other _ =>
      applyGo render data rest st change_text metrics track_color (out ++ [ev])

/-- Source `Template::apply_context_xml`: extract the track color up
front, then run the single forward pass over the event stream. -/
def apply_context_xml (render : RenderFn) (data : Option ContextData)
    (st : MapState) (events : List XmlEvent) :
    Except String (List XmlEvent × MapState) :=
  applyGo render data events st none none (extractTrackColor events) []

/-! Specification-side definitions, written from the claims' wording, to
be compared with the source-derived definitions above. -/

/-- Attributes of an element event, `none` for text and other events. -/
def evAttrs : XmlEvent → Option (List (String × String))
  | .start _ attrs => some attrs
  | .empty _ attrs => some attrs
  | _ => none

/-- Claim premise: no element of the document carries an identifier
matching a recognized placeholder prefix. -/
def eventIdOk (ev : XmlEvent) : Bool :=
  match evAttrs ev with
  | some attrs =>
    match getAttribute attrs "id" with
    | some id =>
      !(strStarts "value_" id || strStarts "path_" id || strStarts "image_" id)
    | none => true
  | none => true

/-- Claim premise as a predicate over the whole document. -/
def NoRecognizedIds (events : List XmlEvent) : Prop :=
  ∀ ev ∈ events, eventIdOk ev = true

/-- Premise forced by the descriptor-parse panic: every self-closing
path element carrying both an id and a d attribute has a d that parses
as a path descriptor. -/
def pathDOk (ev : XmlEvent) : Bool :=
  match ev with
  | .empty n attrs =>
    if n = "path" then
      match getAttribute attrs "id" with
      | some _ =>
        match getAttribute attrs "d" with
        | some pd => (newInputPath pd).toOption.isSome
        | none => true
      | none => true
    else true
  | _ => true

/-- Premise as a predicate over the whole document. -/
def PathDescriptorsOk (events : List XmlEvent) : Prop :=
  ∀ ev ∈ events, pathDOk ev = true

/-- Number of decimated indices of a segment of length n: indices
0, 10, 20, ... below n. -/
def numDecimated (n : Nat) : Nat := (n + 9) / 10

/-- The claim's decimated pairing: point at index i·10 paired with the
point at index (i+1)·10. -/
def specDecimatedPairs (l : List GpxPoint) : List (GpxPoint × GpxPoint) :=
  (List.range (numDecimated l.length - 1)).map
    (fun i => (l.getD (10 * i) default, l.getD (10 * i + 10) default))

/-- Elapsed seconds of a pair, when both timestamps are present. -/
def pairElapsed (p q : GpxPoint) : Option Int :=
  match p.time, q.time with
  | some t1, some t2 => some (t2 - t1)
  | _, _ => none

/-- Instantaneous speed of a pair in km/h:
round(distance) / elapsed · 3.6. -/
def pairSpeed (dist : DistFn) (p q : GpxPoint) (secs : Int) : Rat :=
  rustRound (dist p q) / (secs : Rat) * (18 / 5)

/-- Contribution of a pair to total time: its elapsed seconds when valid
and positive, otherwise nothing. -/
def timeContrib (pq : GpxPoint × GpxPoint) : Int :=
  match pairElapsed pq.1 pq.2 with
  | some e => if e > 0 then e else 0
  | none => 0

/-- Contribution of a pair to moving time: its elapsed seconds when
valid, positive, and the instantaneous speed exceeds 0.5 km/h. -/
def movingContrib (dist : DistFn) (pq : GpxPoint × GpxPoint) : Int :=
  match pairElapsed pq.1 pq.2 with
  | some e => if e > 0 then (if pairSpeed dist pq.1 pq.2 e > 1 / 2 then e else 0) else 0
  | none => 0

/-- The instantaneous speed observed on a pair, when its elapsed time is
valid and positive. -/
def speedOpt (dist : DistFn) (pq : GpxPoint × GpxPoint) : Option Rat :=
  match pairElapsed pq.1 pq.2 with
  | some e => if e > 0 then some (pairSpeed dist pq.1 pq.2 e) else none
  | none => none

/-- Spec total time: sum of valid positive elapsed seconds over the
decimated pairs of every segment of every track. -/
def specTotalTime (gpx : Gpx) : Int :=
  (gpx.tracks.map (fun t =>
    (t.segments.map (fun s => ((specDecimatedPairs s).map timeContrib).sum)).sum)).sum

/-- Spec moving time: as total time, restricted to pairs faster than
0.5 km/h. -/
def specMovingTime (dist : DistFn) (gpx : Gpx) : Int :=
  (gpx.tracks.map (fun t =>
    (t.segments.map (fun s =>
      ((specDecimatedPairs s).map (movingContrib dist)).sum)).sum)).sum

/-- All observed instantaneous speeds, in document order. -/
def specAllSpeeds (dist : DistFn) (gpx : Gpx) : List Rat :=
  (gpx.tracks.map (fun t =>
    (t.segments.map (fun s =>
      (specDecimatedPairs s).filterMap (speedOpt dist))).flatten)).flatten

/-- Spec maximum instantaneous speed, starting from the accumulator's
initial value 0. -/
def specSpeedMax (dist : DistFn) (gpx : Gpx) : Rat :=
  (specAllSpeeds dist gpx).foldl max 0

/-- The claim's reading of name resolution: the first non-empty trimmed
track-level name in document order. -/
def specFirstNonEmptyTrimmedName (gpx : Gpx) : Option String :=
  (((gpx.tracks.filterMap Track.name).map rsTrim).filter
    (fun s => s ≠ "")).head?

/-- The amended name resolution: the first *present* track-level name,
trimmed and truncated, is used only if it trims to non-empty; otherwise
the file stem, and "track" when the stem is empty or absent. -/
def specAmendedTrackName (gpx : Gpx) (filename : String) : String :=
  match (gpx.tracks.filterMap Track.name).head? with
  | some n =>
    if rsTrim n ≠ "" then truncate_ellipsis (rsTrim n) 32
    else specStemFallback filename
  | none => specStemFallback filename
where
  specStemFallback (filename : String) : String :=
    match rsFileStem filename with
    | some st => if st ≠ "" then st else "track"
    | none => "track"

/-- An elevation sample scaled into the target box, per the claim:
horizontal factor target width over total distance, vertical factor
target height over max(elevation span, 100), elevation offset from the
minimum. -/
def specScaledPoints (d : ContextData) (inp : InputPath) : List (Rat × Rat) :=
  d.elevation.map (fun v =>
    (v.d * (inp.length / d.distance),
     (v.e - d.elevation_min) * (inp.height / max (d.elevation_max - d.elevation_min) 100)))

/-- The per-sample deltas: each scaled point minus the previous scaled
point, the first one measured from the origin. -/
def specDeltas (pts : List (Rat × Rat)) : List (Rat × Rat) :=
  List.zipWith (fun cur prev => (cur.1 - prev.1, cur.2 - prev.2)) pts ((0, 0) :: pts)

/-- The spec's synthesized elevation path: original descriptor tokens,
one relative line segment per sample, and a closing vertical segment
back to the baseline. -/
def specElevationPath (d : ContextData) (inp : InputPath) : String :=
  let pts := specScaledPoints d inp
  inp.pfx ++ " " ++ inp.ss ++ " " ++
    String.intercalate " "
      ((specDeltas pts).map (fun s => "l " ++ ratStr s.1 ++ " " ++ ratStr s.2)) ++
    " l 0 " ++ ratStr (-((pts.getLast?.map Prod.snd).getD 0))

/-- Well-formedness of the map memo: either nothing is cached, or the
cached asset is exactly the renderer's output for the cached size and
color triple. -/
def MapWF (render : RenderFn) (coords : List (Rat × Rat)) (st : MapState) : Prop :=
  st.href = none ∨
    ∃ w h s, st.size = some (w, h) ∧ st.href = some s ∧
      render coords w h st.color = some s

/-- The memoization contract of one `get_image` request on a loaded
context: a request repeating the cached (width, height, color) triple
reuses the cached asset without re-rendering; a request for a different
triple replaces the cache with a fresh entry for the request's triple
(or leaves it untouched when the renderer fails); and a returned asset
is always the renderer's output for the exact triple of the request. -/
def ImageMemoSpec (render : RenderFn) (data : ContextData) (st : MapState)
    (k : String) (w h : Nat) (c : Option GColor) : Prop :=
  (∀ s0, st.size = some (w, h) → st.color = c → st.href = some s0 →
    needs_render st w h c = false ∧
    get_image render (some data) st k w h c =
      ((if k = "image_map" then some s0 else none), st)) ∧
  (needs_render st w h c = true →
    (match render data.coords w h c with
     | some s => (get_image render (some data) st k w h c).2 = ⟨some s, some (w, h), c⟩
     | none => get_image render (some data) st k w h c = (none, st))) ∧
  (∀ s, (get_image render (some data) st k w h c).1 = some s →
    k = "image_map" ∧ render data.coords w h c = some s) ∧
  MapWF render data.coords (get_image render (some data) st k w h c).2

/-! Theorems. -/

theorem fallback_eq (filename : String) :
    ((rsFileStem filename).filter (fun s => s ≠ "")).getD "track" =
      specAmendedTrackName.specStemFallback filename := by
  unfold specAmendedTrackName.specStemFallback
  cases h : rsFileStem filename with
  | none => rfl
  | some st =>
    simp only [Option.filter]
    split_ifs with h1 <;> simp_all

/-- C6: truncation to 32 characters returns short strings unchanged,
returns exactly 32 characters ending in the ellipsis for long strings,
and truncation to 0 characters returns the empty string. -/
theorem c6_truncate_ellipsis (s : String) :
    (charCount s ≤ 32 → truncate_ellipsis s 32 = s) ∧
    (32 < charCount s → charCount (truncate_ellipsis s 32) = 32 ∧
      (truncate_ellipsis s 32).data.getLast? = some '…') ∧
    truncate_ellipsis s 0 = "" := by
  refine ⟨fun h => ?_, fun h => ?_, ?_⟩
  · unfold truncate_ellipsis
    rw [if_neg (by omega), if_pos h]
  · have hn : ¬ charCount s ≤ 32 := by omega
    unfold truncate_ellipsis
    rw [if_neg (by omega), if_neg hn]
    unfold charCount at h ⊢
    refine ⟨?_, ?_⟩
    · have hd : ("…" : String).data.length = 1 := rfl
      rw [String.data_append, List.length_append, List.length_take, hd]
      omega
    · rw [String.data_append]
      exact List.getLast?_concat _
  · unfold truncate_ellipsis
    rw [if_pos rfl]

theorem c6_truncate_ellipsis_witness :
    (charCount "short" ≤ 32 ∧ truncate_ellipsis "short" 32 = "short") ∧
    (32 < charCount "abcdefghijklmnopqrstuvwxyz0123456789" ∧
      charCount (truncate_ellipsis "abcdefghijklmnopqrstuvwxyz0123456789" 32) = 32 ∧
      (truncate_ellipsis "abcdefghijklmnopqrstuvwxyz0123456789" 32).data.getLast? =
        some '…') :=
  ⟨⟨by decide, (c6_truncate_ellipsis "short").1 (by decide)⟩,
   ⟨by decide,
    (c6_truncate_ellipsis "abcdefghijklmnopqrstuvwxyz0123456789").2.1 (by decide)⟩⟩

/-- C5 counterexample: with a first track whose name trims to empty and a
second track named "Real", the code falls back to the file stem, while
the claim's "first non-empty, trimmed track-level name in document
order" is "Real". -/
theorem c5_counterexample :
    compute_track_name ⟨[⟨some "  ", []⟩, ⟨some "Real", []⟩]⟩ "foo_bar.gpx" =
      "foo_bar" ∧
    specFirstNonEmptyTrimmedName ⟨[⟨some "  ", []⟩, ⟨some "Real", []⟩]⟩ =
      some "Real" ∧
    ("foo_bar" : String) ≠ "Real" :=
  ⟨by decide, by decide, by decide⟩

/-- C5 amended: the resolved name comes from the first track-level name
that is present in document order — trimmed and truncated to 32
characters — provided it trims to non-empty; otherwise from the file
stem, and it is the fixed default "track" when the stem is empty or
absent. -/
theorem c5_track_name_resolution (gpx : Gpx) (filename : String) :
    compute_track_name gpx filename = specAmendedTrackName gpx filename := by
  unfold compute_track_name specAmendedTrackName
  cases h : (gpx.tracks.filterMap Track.name).head? with
  | none => simpa [Option.filter] using fallback_eq filename
  | some n =>
    simp only [Option.map_some', Option.filter, Option.bind_some]
    by_cases h1 : rsTrim n = ""
    · simp [h1]
      simp only [specAmendedTrackName.specStemFallback]
      cases hst : rsFileStem filename with
      | none => simp
      | some st => by_cases hse : st = "" <;> simp [hse]
    · simp [h1]

theorem segStep_nil (dist : DistFn) (acc : LoadAcc) :
    segStep dist acc [] = acc := by
  simp [segStep, pairsOf, stepBy10, stepBy10Aux]

theorem trackStep_all_empty (dist : DistFn) (acc : LoadAcc) (t : Track)
    (h : ∀ s ∈ t.segments, s = []) : trackStep dist acc t = acc := by
  unfold trackStep
  have hsum : (t.segments.map (lineLength dist)).sum = 0 := by
    apply List.sum_eq_zero
    intro x hx
    rcases List.mem_map.mp hx with ⟨s, hs, rfl⟩
    rw [h s hs]
    rfl
  rw [hsum]
  have hfold : ∀ (segs : List (List GpxPoint)) (acc' : LoadAcc),
      (∀ s ∈ segs, s = []) → segs.foldl (segStep dist) acc' = acc' := by
    intro segs
    induction segs with
    | nil => intro acc' _; rfl
    | cons s rest ih =>
      intro acc' hall
      rw [List.foldl_cons, hall s (by simp), segStep_nil, ih acc'
        (fun x hx => hall x (by simp [hx]))]
  rw [hfold t.segments _ h]
  simp

/-- C10: loading a parsed track source containing zero points succeeds
with zero or default statistics, an empty elevation profile and an empty
coordinate list. -/
theorem c10_zero_points_defaults (dist : DistFn) (gpx : Gpx) (filename : String)
    (h : ∀ t ∈ gpx.tracks, ∀ s ∈ t.segments, s = []) :
    (loadStats dist gpx filename).distance = 0 ∧
    (loadStats dist gpx filename).time = 0 ∧
    (loadStats dist gpx filename).time_moving = 0 ∧
    (loadStats dist gpx filename).speed = 0 ∧
    (loadStats dist gpx filename).speed_moving = 0 ∧
    (loadStats dist gpx filename).speed_max = 0 ∧
    (loadStats dist gpx filename).uphill = 0 ∧
    (loadStats dist gpx filename).downhill = 0 ∧
    (loadStats dist gpx filename).elevation_max = 0 ∧
    (loadStats dist gpx filename).elevation_min = 99999 ∧
    (loadStats dist gpx filename).elevation = [] ∧
    (loadStats dist gpx filename).coords = [] := by
  have hfold : gpx.tracks.foldl (trackStep dist) initAcc = initAcc := by
    have : ∀ (ts : List Track) (acc : LoadAcc), (∀ t ∈ ts, ∀ s ∈ t.segments, s = []) →
        ts.foldl (trackStep dist) acc = acc := by
      intro ts
      induction ts with
      | nil => intro acc _; rfl
      | cons t rest ih =>
        intro acc hall
        rw [List.foldl_cons, trackStep_all_empty dist acc t (hall t (by simp)),
          ih acc (fun x hx => hall x (by simp [hx]))]
    exact this gpx.tracks initAcc h
  unfold loadStats
  rw [hfold]
  simp [initAcc]

theorem c10_zero_points_defaults_witness :
    (loadStats (fun _ _ => 1) ⟨[⟨none, [[], []]⟩]⟩ "a.gpx").distance = 0 ∧
    (loadStats (fun _ _ => 1) ⟨[⟨none, [[], []]⟩]⟩ "a.gpx").time = 0 ∧
    (loadStats (fun _ _ => 1) ⟨[⟨none, [[], []]⟩]⟩ "a.gpx").time_moving = 0 ∧
    (loadStats (fun _ _ => 1) ⟨[⟨none, [[], []]⟩]⟩ "a.gpx").speed = 0 ∧
    (loadStats (fun _ _ => 1) ⟨[⟨none, [[], []]⟩]⟩ "a.gpx").speed_moving = 0 ∧
    (loadStats (fun _ _ => 1) ⟨[⟨none, [[], []]⟩]⟩ "a.gpx").speed_max = 0 ∧
    (loadStats (fun _ _ => 1) ⟨[⟨none, [[], []]⟩]⟩ "a.gpx").uphill = 0 ∧
    (loadStats (fun _ _ => 1) ⟨[⟨none, [[], []]⟩]⟩ "a.gpx").downhill = 0 ∧
    (loadStats (fun _ _ => 1) ⟨[⟨none, [[], []]⟩]⟩ "a.gpx").elevation_max = 0 ∧
    (loadStats (fun _ _ => 1) ⟨[⟨none, [[], []]⟩]⟩ "a.gpx").elevation_min = 99999 ∧
    (loadStats (fun _ _ => 1) ⟨[⟨none, [[], []]⟩]⟩ "a.gpx").elevation = [] ∧
    (loadStats (fun _ _ => 1) ⟨[⟨none, [[], []]⟩]⟩ "a.gpx").coords = [] :=
  c10_zero_points_defaults (fun _ _ => 1) ⟨[⟨none, [[], []]⟩]⟩ "a.gpx" (by decide)

/-- C1: contrary to the claim, the substitution pass does not survive
every path placeholder: a self-closing path element carrying an id and a
d attribute whose first token is not the drawing command m or M makes
`InputPath::new` panic under `handle_xml`'s unwrap, aborting the whole
pass instead of writing the element through unchanged. -/
theorem c1_path_placeholder_aborts :
    apply_context_xml (fun _ _ _ _ => none) none ⟨none, none, none⟩
      [XmlEvent.empty "path" [("id", "path_profile"), ("d", "L 0,0 1,1")]] =
      Except.error "assertion failed: first path token must be m or M" := by
  rfl

/-- C2 counterexample: a well-formed document with no recognized
placeholder identifier (the only id, "decor", matches none of the
value_, path_, image_ prefixes) is not returned unchanged: the pass
aborts on the unparsable d attribute of the id-bearing path element. -/
theorem c2_counterexample :
    apply_context_xml (fun _ _ _ _ => none) none ⟨none, none, none⟩
      [XmlEvent.empty "path" [("id", "decor"), ("d", "x")]] =
      Except.error "assertion failed: first path token must be m or M" ∧
    NoRecognizedIds [XmlEvent.empty "path" [("id", "decor"), ("d", "x")]] :=
  ⟨by rfl, by unfold NoRecognizedIds; decide⟩

theorem getString_none (data : Option ContextData) (id : String)
    (h : strStarts "value_" id = false) : getString data id = none := by
  cases data with
  | none => rfl
  | some d =>
    have e1 : (id = "value_track_name") = False :=
      eq_false (fun he => absurd (he ▸ h) (by decide))
    have e2 : (id = "value_distance") = False :=
      eq_false (fun he => absurd (he ▸ h) (by decide))
    have e3 : (id = "value_speed") = False :=
      eq_false (fun he => absurd (he ▸ h) (by decide))
    have e4 : (id = "value_speed_max") = False :=
      eq_false (fun he => absurd (he ▸ h) (by decide))
    have e5 : (id = "value_speed_moving") = False :=
      eq_false (fun he => absurd (he ▸ h) (by decide))
    have e6 : (id = "value_uphill") = False :=
      eq_false (fun he => absurd (he ▸ h) (by decide))
    have e7 : (id = "value_downhill") = False :=
      eq_false (fun he => absurd (he ▸ h) (by decide))
    have e8 : (id = "value_elevation_max") = False :=
      eq_false (fun he => absurd (he ▸ h) (by decide))
    have e9 : (id = "value_elevation_min") = False :=
      eq_false (fun he => absurd (he ▸ h) (by decide))
    have e10 : (id = "value_time") = False :=
      eq_false (fun he => absurd (he ▸ h) (by decide))
    have e11 : (id = "value_moving_time") = False :=
      eq_false (fun he => absurd (he ▸ h) (by decide))
    simp only [getString, e1, e2, e3, e4, e5, e6, e7, e8, e9, e10, e11, if_false]

theorem getPath_none (data : Option ContextData) (id : String) (inp : InputPath)
    (h : strStarts "path_" id = false) : getPath data id inp = none := by
  unfold getPath
  rw [if_neg (fun he => absurd (he ▸ h) (by decide))]

theorem get_image_fst_none (render : RenderFn) (data : Option ContextData)
    (st : MapState) (id : String) (w hp : Nat) (c : Option GColor)
    (h : id ≠ "image_map") : (get_image render data st id w hp c).1 = none := by
  unfold get_image
  cases data with
  | none => rfl
  | some d =>
    by_cases hr : needs_render st w hp c
    · simp only [hr, if_true]
      cases build_map render (some d) w hp c <;> simp [h]
    · simp [hr, h]

theorem pair_eq_none_snd {p : Option String × MapState} (h : p.1 = none) :
    p = (none, p.2) := by
  cases p with
  | mk a b => simp only at h; simp [h]

theorem handle_xml_none (render : RenderFn) (data : Option ContextData)
    (st : MapState) (name : String) (attrs : List (String × String))
    (metrics : Option SvgMetrics) (tc : Option GColor)
    (hid : ∀ id, getAttribute attrs "id" = some id →
      strStarts "value_" id = false ∧ strStarts "path_" id = false ∧
        strStarts "image_" id = false)
    (hpd : name = "path" → ∀ id, getAttribute attrs "id" = some id →
      ∀ pd, getAttribute attrs "d" = some pd →
        (newInputPath pd).toOption.isSome = true) :
    ∃ st2, handle_xml render data st name attrs metrics tc = .ok (none, st2) := by
  unfold handle_xml
  cases hId : getAttribute attrs "id" with
  | none => exact ⟨st, rfl⟩
  | some id =>
    obtain ⟨hv, hp, hi⟩ := hid id hId
    by_cases h1 : name = "tspan"
    · refine ⟨st, ?_⟩
      simp [h1, getString_none data id hv]
    · by_cases h2 : name = "path"
      · cases hD : getAttribute attrs "d" with
        | none => exact ⟨st, by simp [h1, h2, hD]⟩
        | some pd =>
          have hOk := hpd h2 id hId pd hD
          cases hnp : newInputPath pd with
          | error e => rw [hnp] at hOk; simp [Except.toOption] at hOk
          | ok inp =>
            exact ⟨st, by simp [h1, h2, hD, hnp, getPath_none data id inp hp]⟩
      · by_cases h3 : name = "image"
        · have hnm : id ≠ "image_map" := fun he => absurd (he ▸ hi) (by decide)
          cases hW : getAttribute attrs "width" with
          | none => exact ⟨st, by simp [h1, h2, h3, hW]⟩
          | some wd =>
            cases hH : getAttribute attrs "height" with
            | none => exact ⟨st, by simp [h1, h2, h3, hW, hH]⟩
            | some hd =>
              cases hPW : parseF64 wd with
              | none => exact ⟨st, by simp [h1, h2, h3, hW, hH, hPW]⟩
              | some wU =>
                cases hPH : parseF64 hd with
                | none => exact ⟨st, by simp [h1, h2, h3, hW, hH, hPW, hPH]⟩
                | some hU =>
                  simp only [h1, h2, h3, hW, hH, hPW, hPH, if_false, if_true,
                    ite_true, ite_false, Except.ok.injEq]
                  exact ⟨_, congrArg Except.ok
                    (pair_eq_none_snd (get_image_fst_none _ _ _ _ _ _ _ hnm))⟩
        · exact ⟨st, by simp [h1, h2, h3]⟩

theorem eventIdOk_spec (ev : XmlEvent) (attrs : List (String × String))
    (ha : evAttrs ev = some attrs) (hok : eventIdOk ev = true) :
    ∀ id, getAttribute attrs "id" = some id →
      strStarts "value_" id = false ∧ strStarts "path_" id = false ∧
        strStarts "image_" id = false := by
  intro id hid
  simp only [eventIdOk, ha, hid, Bool.not_eq_eq_eq_not, Bool.not_true,
    Bool.or_eq_false_iff] at hok
  exact ⟨hok.1.1, hok.1.2, hok.2⟩

theorem pathDOk_spec (attrs : List (String × String))
    (hok : pathDOk (XmlEvent.empty "path" attrs) = true) :
    ∀ id, getAttribute attrs "id" = some id →
      ∀ pd, getAttribute attrs "d" = some pd →
        (newInputPath pd).toOption.isSome = true := by
  intro id hid pd hpd
  simp only [pathDOk, hid, hpd, if_true, eq_self_iff_true] at hok
  exact hok

theorem applyGo_pass (render : RenderFn) (data : Option ContextData) :
    ∀ (events : List XmlEvent) (st : MapState) (metrics : Option SvgMetrics)
      (tc : Option GColor) (out : List XmlEvent),
      NoRecognizedIds events → PathDescriptorsOk events →
      ∃ st2, applyGo render data events st none metrics tc out =
        .ok (out ++ events, st2) := by
  intro events
  induction events with
  | nil =>
    intro st metrics tc out _ _
    exact ⟨st, by simp [applyGo]⟩
  | cons ev rest ih =>
    intro st metrics tc out hNR hPD
    have hNRr : NoRecognizedIds rest := fun e he => hNR e (List.mem_cons_of_mem _ he)
    have hPDr : PathDescriptorsOk rest := fun e he => hPD e (List.mem_cons_of_mem _ he)
    have hok := hNR ev (List.mem_cons_self _ _)
    have hpok := hPD ev (List.mem_cons_self _ _)
    cases ev with
    | start name attrs =>
      by_cases h1 : name = "svg"
      · subst h1
        obtain ⟨st2, h2⟩ := ih st (svgMetricsOf metrics attrs) tc
          (out ++ [XmlEvent.start "svg" attrs]) hNRr hPDr
        refine ⟨st2, ?_⟩
        simp only [applyGo, if_pos rfl]
        rw [h2]
        simp
      · by_cases h2 : name = "tspan"
        · subst h2
          obtain ⟨stH, hH⟩ := handle_xml_none render data st "tspan" attrs metrics tc
            (eventIdOk_spec (XmlEvent.start "tspan" attrs) attrs rfl hok)
            (fun hcon => absurd hcon (by decide))
          obtain ⟨st2, hrec⟩ := ih stH metrics tc
            (out ++ [XmlEvent.start "tspan" attrs]) hNRr hPDr
          refine ⟨st2, ?_⟩
          simp only [applyGo, if_neg h1, if_pos rfl, hH]
          rw [hrec]
          simp
        · obtain ⟨st2, hrec⟩ := ih st metrics tc
            (out ++ [XmlEvent.start name attrs]) hNRr hPDr
          refine ⟨st2, ?_⟩
          simp only [applyGo, if_neg h1, if_neg h2]
          rw [hrec]
          simp
    | empty name attrs =>
      by_cases h1 : name = "path"
      · subst h1
        obtain ⟨stH, hH⟩ := handle_xml_none render data st "path" attrs metrics tc
          (eventIdOk_spec (XmlEvent.empty "path" attrs) attrs rfl hok)
          (fun _ => pathDOk_spec attrs hpok)
        obtain ⟨st2, hrec⟩ := ih stH metrics tc
          (out ++ [XmlEvent.empty "path" attrs]) hNRr hPDr
        refine ⟨st2, ?_⟩
        simp only [applyGo, if_pos rfl, hH]
        rw [hrec]
        simp
      · by_cases h2 : name = "image"
        · subst h2
          obtain ⟨stH, hH⟩ := handle_xml_none render data st "image" attrs metrics tc
            (eventIdOk_spec (XmlEvent.empty "image" attrs) attrs rfl hok)
            (fun hcon => absurd hcon (by decide))
          obtain ⟨st2, hrec⟩ := ih stH metrics tc
            (out ++ [XmlEvent.empty "image" attrs]) hNRr hPDr
          refine ⟨st2, ?_⟩
          simp only [applyGo, if_neg h1, if_pos rfl, hH]
          rw [hrec]
          simp
        · obtain ⟨st2, hrec⟩ := ih st metrics tc
            (out ++ [XmlEvent.empty name attrs]) hNRr hPDr
          refine ⟨st2, ?_⟩
          simp only [applyGo, if_neg h1, if_neg h2]
          rw [hrec]
          simp
    | text s =>
      obtain ⟨st2, hrec⟩ := ih st metrics tc (out ++ [XmlEvent.text s]) hNRr hPDr
      refine ⟨st2, ?_⟩
      simp only [applyGo]
      rw [hrec]
      simp
    | other r =>
      obtain ⟨st2, hrec⟩ := ih st metrics tc (out ++ [XmlEvent.other r]) hNRr hPDr
      refine ⟨st2, ?_⟩
      simp only [applyGo]
      rw [hrec]
      simp

/-- C2 amended: a well-formed document with no recognized placeholder
identifier is passed through with every event unchanged (modulo the
markup library's own whitespace normalization, which the event model
absorbs), provided additionally that every self-closing path element
carrying both an id and a d attribute has a parsable descriptor — the
condition forced by the descriptor-parse panic of C1/C2's
counterexample. -/
theorem c2_pass_through (render : RenderFn) (data : Option ContextData)
    (st : MapState) (events : List XmlEvent)
    (h1 : NoRecognizedIds events) (h2 : PathDescriptorsOk events) :
    ∃ st2, apply_context_xml render data st events = .ok (events, st2) := by
  obtain ⟨st2, he⟩ :=
    applyGo_pass render data events st none (extractTrackColor events) [] h1 h2
  exact ⟨st2, by simpa [apply_context_xml] using he⟩

theorem c2_pass_through_witness :
    ∃ st2, apply_context_xml (fun _ _ _ _ => some "H") none ⟨none, none, none⟩
      [XmlEvent.start "svg" [("width", "1080")],
       XmlEvent.start "tspan" [("id", "note")],
       XmlEvent.text "hello",
       XmlEvent.other "/tspan",
       XmlEvent.empty "image" [("id", "logo")],
       XmlEvent.empty "path" [("stroke", "#000000")]] =
      .ok ([XmlEvent.start "svg" [("width", "1080")],
       XmlEvent.start "tspan" [("id", "note")],
       XmlEvent.text "hello",
       XmlEvent.other "/tspan",
       XmlEvent.empty "image" [("id", "logo")],
       XmlEvent.empty "path" [("stroke", "#000000")]], st2) :=
  c2_pass_through (fun _ _ _ _ => some "H") none ⟨none, none, none⟩ _
    (by unfold NoRecognizedIds; decide) (by unfold PathDescriptorsOk; decide)

theorem stepBy10Aux_getElem (l : List α) : ∀ k i, (stepBy10Aux l k)[i]? = l[k + 10 * i]? := by
  induction l with
  | nil => intro k i; simp [stepBy10Aux]
  | cons x xs ih =>
    intro k i
    cases k with
    | zero =>
      cases i with
      | zero => simp [stepBy10Aux]
      | succ j =>
        show (x :: stepBy10Aux xs 9)[j + 1]? = (x :: xs)[0 + 10 * (j + 1)]?
        rw [List.getElem?_cons_succ, ih 9 j]
        have h : 0 + 10 * (j + 1) = (9 + 10 * j) + 1 := by omega
        rw [h, List.getElem?_cons_succ]
    | succ k' =>
      show (stepBy10Aux xs k')[i]? = (x :: xs)[k' + 1 + 10 * i]?
      rw [ih k' i]
      have h : k' + 1 + 10 * i = (k' + 10 * i) + 1 := by omega
      rw [h, List.getElem?_cons_succ]

theorem stepBy10Aux_length (l : List α) :
    ∀ k, k ≤ 9 → (stepBy10Aux l k).length = (l.length + 9 - k) / 10 := by
  induction l with
  | nil => intro k hk; simp only [stepBy10Aux, List.length_nil]; omega
  | cons x xs ih =>
    intro k hk
    cases k with
    | zero =>
      simp only [stepBy10Aux, List.length_cons, ih 9 (by omega)]
      omega
    | succ k' =>
      simp only [stepBy10Aux, List.length_cons, ih k' (by omega)]
      omega

theorem stepBy10_getElem (l : List α) (i : Nat) : (stepBy10 l)[i]? = l[10 * i]? := by
  simpa using stepBy10Aux_getElem l 0 i

theorem stepBy10_length (l : List α) : (stepBy10 l).length = (l.length + 9) / 10 := by
  simpa using stepBy10Aux_length l 0 (by omega)

theorem pairsOf_eq_spec (l : List GpxPoint) : pairsOf l = specDecimatedPairs l := by
  apply List.ext_getElem?
  intro i
  unfold pairsOf specDecimatedPairs numDecimated
  have hlen : (stepBy10 l).length = (l.length + 9) / 10 := stepBy10_length l
  by_cases hi : i < (l.length + 9) / 10 - 1
  · have hb1 : 10 * (i + 1) < l.length := by omega
    have hb0 : 10 * i < l.length := by omega
    have hv0 : (stepBy10 l)[i]? = some (l.getD (10 * i) default) := by
      rw [stepBy10_getElem, List.getElem?_eq_getElem hb0,
        List.getD_eq_getElem l default hb0]
    have hv1 : ((stepBy10 l).drop 1)[i]? = some (l.getD (10 * i + 10) default) := by
      rw [List.getElem?_drop, show 1 + i = i + 1 from by omega, stepBy10_getElem,
        show 10 * (i + 1) = 10 * i + 10 from by omega,
        List.getElem?_eq_getElem (show 10 * i + 10 < l.length from by omega),
        List.getD_eq_getElem l default (show 10 * i + 10 < l.length from by omega)]
    rw [List.getElem?_map, List.getElem?_range hi, Option.map_some']
    exact List.getElem?_zip_eq_some.mpr ⟨hv0, hv1⟩
  · have hz : ((stepBy10 l).zip ((stepBy10 l).drop 1)).length ≤ i := by
      rw [List.length_zip, List.length_drop, hlen]
      omega
    rw [List.getElem?_eq_none hz, List.getElem?_eq_none]
    rw [List.length_map, List.length_range]
    omega

set_option maxHeartbeats 1600000 in
theorem pairStep_proj (dist : DistFn) (acc : LoadAcc) (pq : GpxPoint × GpxPoint) :
    (pairStep dist acc pq).tot_time = acc.tot_time + timeContrib pq ∧
    (pairStep dist acc pq).tot_moving_time =
      acc.tot_moving_time + movingContrib dist pq ∧
    (pairStep dist acc pq).speed_max =
      (match speedOpt dist pq with
       | some s => max acc.speed_max s
       | none => acc.speed_max) := by
  unfold pairStep timeContrib movingContrib speedOpt pairElapsed pairSpeed
  cases h1 : pq.1.time <;> cases h2 : pq.2.time <;>
    cases h3 : pq.1.elevation <;> cases h4 : pq.2.elevation <;>
    simp only <;>
    (try split_ifs) <;>
    simp_all [max_def] <;>
    first
    | rfl
    | omega
    | linarith
    | (split_ifs <;> first | linarith | simp_all)

theorem foldl_pairStep (dist : DistFn) (l : List (GpxPoint × GpxPoint)) :
    ∀ acc : LoadAcc,
      (l.foldl (pairStep dist) acc).tot_time =
        acc.tot_time + (l.map timeContrib).sum ∧
      (l.foldl (pairStep dist) acc).tot_moving_time =
        acc.tot_moving_time + (l.map (movingContrib dist)).sum ∧
      (l.foldl (pairStep dist) acc).speed_max =
        (l.filterMap (speedOpt dist)).foldl max acc.speed_max := by
  induction l with
  | nil => intro acc; simp
  | cons pq rest ih =>
    intro acc
    obtain ⟨ht, hm, hs⟩ := ih (pairStep dist acc pq)
    obtain ⟨pt, pm, ps⟩ := pairStep_proj dist acc pq
    refine ⟨?_, ?_, ?_⟩
    · rw [List.foldl_cons, ht, pt, List.map_cons, List.sum_cons]
      ring
    · rw [List.foldl_cons, hm, pm, List.map_cons, List.sum_cons]
      ring
    · rw [List.foldl_cons, hs, ps, List.filterMap_cons]
      cases h : speedOpt dist pq with
      | none => simp
      | some s => simp

theorem segStep_proj (dist : DistFn) (acc : LoadAcc) (points : List GpxPoint) :
    (segStep dist acc points).tot_time =
      acc.tot_time + ((pairsOf points).map timeContrib).sum ∧
    (segStep dist acc points).tot_moving_time =
      acc.tot_moving_time + ((pairsOf points).map (movingContrib dist)).sum ∧
    (segStep dist acc points).speed_max =
      ((pairsOf points).filterMap (speedOpt dist)).foldl max acc.speed_max := by
  unfold segStep
  exact foldl_pairStep dist (pairsOf points)
    { acc with coords := acc.coords ++ points.map (fun p => (p.lon, p.lat)) }

theorem foldl_segStep (dist : DistFn) (segs : List (List GpxPoint)) :
    ∀ acc : LoadAcc,
      (segs.foldl (segStep dist) acc).tot_time =
        acc.tot_time + (segs.map (fun s => ((pairsOf s).map timeContrib).sum)).sum ∧
      (segs.foldl (segStep dist) acc).tot_moving_time =
        acc.tot_moving_time +
          (segs.map (fun s => ((pairsOf s).map (movingContrib dist)).sum)).sum ∧
      (segs.foldl (segStep dist) acc).speed_max =
        ((segs.map (fun s => (pairsOf s).filterMap (speedOpt dist))).flatten).foldl
          max acc.speed_max := by
  induction segs with
  | nil => intro acc; simp
  | cons s rest ih =>
    intro acc
    obtain ⟨ht, hm, hs⟩ := ih (segStep dist acc s)
    obtain ⟨pt, pm, ps⟩ := segStep_proj dist acc s
    refine ⟨?_, ?_, ?_⟩
    · rw [List.foldl_cons, ht, pt, List.map_cons, List.sum_cons]
      ring
    · rw [List.foldl_cons, hm, pm, List.map_cons, List.sum_cons]
      ring
    · rw [List.foldl_cons, hs, ps, List.map_cons, List.flatten_cons,
        List.foldl_append]

theorem trackStep_proj (dist : DistFn) (acc : LoadAcc) (t : Track) :
    (trackStep dist acc t).tot_time =
      acc.tot_time + (t.segments.map (fun s => ((pairsOf s).map timeContrib).sum)).sum ∧
    (trackStep dist acc t).tot_moving_time =
      acc.tot_moving_time +
        (t.segments.map (fun s => ((pairsOf s).map (movingContrib dist)).sum)).sum ∧
    (trackStep dist acc t).speed_max =
      ((t.segments.map (fun s => (pairsOf s).filterMap (speedOpt dist))).flatten).foldl
        max acc.speed_max := by
  unfold trackStep
  exact foldl_segStep dist t.segments
    { acc with tot_distance := acc.tot_distance + (t.segments.map (lineLength dist)).sum }

theorem foldl_trackStep (dist : DistFn) (ts : List Track) :
    ∀ acc : LoadAcc,
      (ts.foldl (trackStep dist) acc).tot_time =
        acc.tot_time + (ts.map (fun t =>
          (t.segments.map (fun s => ((pairsOf s).map timeContrib).sum)).sum)).sum ∧
      (ts.foldl (trackStep dist) acc).tot_moving_time =
        acc.tot_moving_time + (ts.map (fun t =>
          (t.segments.map (fun s => ((pairsOf s).map (movingContrib dist)).sum)).sum)).sum ∧
      (ts.foldl (trackStep dist) acc).speed_max =
        ((ts.map (fun t =>
          (t.segments.map (fun s => (pairsOf s).filterMap (speedOpt dist))).flatten)).flatten).foldl
          max acc.speed_max := by
  induction ts with
  | nil => intro acc; simp
  | cons t rest ih =>
    intro acc
    obtain ⟨ht, hm, hs⟩ := ih (trackStep dist acc t)
    obtain ⟨pt, pm, ps⟩ := trackStep_proj dist acc t
    refine ⟨?_, ?_, ?_⟩
    · rw [List.foldl_cons, ht, pt, List.map_cons, List.sum_cons]
      ring
    · rw [List.foldl_cons, hm, pm, List.map_cons, List.sum_cons]
      ring
    · rw [List.foldl_cons, hs, ps, List.map_cons, List.flatten_cons,
        List.foldl_append]

/-- C3: the analyzer's time and speed statistics are exactly the claim's
formulas over the decimated pairs (points 0, 10, 20, ... of each segment
paired consecutively): total time is the sum of valid positive elapsed
times, a pair counts toward moving time iff round(distance)/elapsed·3.6
exceeds 0.5 km/h, the maximum instantaneous speed is tracked, and the
code's pairing agrees with the index characterization 10i, 10(i+1). -/
theorem c3_decimated_time_speed_stats (dist : DistFn) (gpx : Gpx) (filename : String) :
    (loadStats dist gpx filename).time = specTotalTime gpx ∧
    (loadStats dist gpx filename).time_moving = specMovingTime dist gpx ∧
    (loadStats dist gpx filename).speed_max = specSpeedMax dist gpx ∧
    (∀ seg : List GpxPoint, pairsOf seg = specDecimatedPairs seg) := by
  obtain ⟨ht, hm, hs⟩ := foldl_trackStep dist gpx.tracks initAcc
  refine ⟨?_, ?_, ?_, pairsOf_eq_spec⟩
  · show (gpx.tracks.foldl (trackStep dist) initAcc).tot_time = _
    rw [ht]
    simp [initAcc, specTotalTime, pairsOf_eq_spec]
  · show (gpx.tracks.foldl (trackStep dist) initAcc).tot_moving_time = _
    rw [hm]
    simp [initAcc, specMovingTime, pairsOf_eq_spec]
  · show (gpx.tracks.foldl (trackStep dist) initAcc).speed_max = _
    rw [hs]
    simp [initAcc, specSpeedMax, specAllSpeeds, pairsOf_eq_spec]

theorem movingContrib_le (dist : DistFn) (pq : GpxPoint × GpxPoint) :
    0 ≤ movingContrib dist pq ∧ movingContrib dist pq ≤ timeContrib pq := by
  unfold movingContrib timeContrib
  cases pairElapsed pq.1 pq.2 with
  | none => simp
  | some e => simp only; split_ifs <;> omega

theorem specMoving_le_specTotal (dist : DistFn) (gpx : Gpx) :
    specMovingTime dist gpx ≤ specTotalTime gpx := by
  unfold specMovingTime specTotalTime
  apply List.sum_le_sum
  intro t _
  apply List.sum_le_sum
  intro s _
  apply List.sum_le_sum
  intro pq _
  exact (movingContrib_le dist pq).2

/-- C4: for every input, moving time is at most total time, and both
durations are exactly the sums, over the decimated pairs of every
segment, of contributions that are zero unless the pair's elapsed time
is valid and positive. -/
theorem c4_moving_time_invariant (dist : DistFn) (gpx : Gpx) (filename : String) :
    (loadStats dist gpx filename).time_moving ≤ (loadStats dist gpx filename).time ∧
    (loadStats dist gpx filename).time = specTotalTime gpx ∧
    (loadStats dist gpx filename).time_moving = specMovingTime dist gpx := by
  obtain ⟨ht, hm, _⟩ := foldl_trackStep dist gpx.tracks initAcc
  have het : (loadStats dist gpx filename).time = specTotalTime gpx := by
    show (gpx.tracks.foldl (trackStep dist) initAcc).tot_time = _
    rw [ht]
    simp [initAcc, specTotalTime, pairsOf_eq_spec]
  have hem : (loadStats dist gpx filename).time_moving = specMovingTime dist gpx := by
    show (gpx.tracks.foldl (trackStep dist) initAcc).tot_moving_time = _
    rw [hm]
    simp [initAcc, specMovingTime, pairsOf_eq_spec]
  refine ⟨?_, het, hem⟩
  rw [het, hem]
  exact specMoving_le_specTotal dist gpx

theorem getLast?_cons_getD {α : Type _} (xs : List α) (a d : α) :
    ((a :: xs).getLast?).getD d = (xs.getLast?).getD a := by
  cases xs with
  | nil => rfl
  | cons b ys =>
    cases hc : (b :: ys).getLast? with
    | none => exact absurd hc (by simp)
    | some x => simp [List.getLast?_cons_cons, hc]

theorem getD_pair_snd (o : Option (Rat × Rat)) :
    (o.getD (0, 0)).2 = (o.map Prod.snd).getD 0 := by
  cases o <;> rfl

theorem getPath_fold (l : List ElevPoint) :
    ∀ (old : Rat × Rat) (strs : List String),
      l.foldl (fun st v =>
          ((v.d, v.e),
            st.2 ++ ["l " ++ ratStr (v.d - st.1.1) ++ " " ++ ratStr (v.e - st.1.2)]))
        (old, strs) =
      ((l.map (fun u => (u.d, u.e))).getLast?.getD old,
       strs ++ List.zipWith
         (fun v prev => "l " ++ ratStr (v.d - prev.1) ++ " " ++ ratStr (v.e - prev.2))
         l (old :: l.map (fun u => (u.d, u.e)))) := by
  induction l with
  | nil => intro old strs; simp
  | cons v rest ih =>
    intro old strs
    rw [List.foldl_cons,
      ih (v.d, v.e) (strs ++ ["l " ++ ratStr (v.d - old.1) ++ " " ++ ratStr (v.e - old.2)])]
    rw [List.map_cons, List.zipWith_cons_cons]
    rw [getLast?_cons_getD]
    simp [List.append_assoc]

/-- C7: the synthesized elevation path equals the spec construction:
it starts with the descriptor's original prefix and start-point tokens,
scales each sample by width/total-distance horizontally and by
height/max(span, 100) vertically with elevations offset from the
minimum, emits one relative segment per sample carrying the delta from
the previous scaled point, and closes with a relative vertical segment
equal to the negative of the last accumulated vertical offset. -/
theorem c7_elevation_path (d : ContextData) (inp : InputPath) :
    getPath (some d) "path_elevation" inp = some (specElevationPath d inp) ∧
    (inp.pfx ++ " " ++ inp.ss).data <+: (specElevationPath d inp).data := by
  constructor
  · unfold getPath
    rw [if_pos rfl]
    rw [Option.map_some']
    congr 1
    dsimp only
    rw [getPath_fold]
    have hpts : (d.elevation.map (fun v =>
        ElevPoint.mk ((v.e - d.elevation_min) *
          (inp.height / max (d.elevation_max - d.elevation_min) 100))
          (v.d * (inp.length / d.distance)))).map (fun u => (u.d, u.e)) =
        d.elevation.map (fun v =>
          (v.d * (inp.length / d.distance),
           (v.e - d.elevation_min) *
             (inp.height / max (d.elevation_max - d.elevation_min) 100))) := by
      rw [List.map_map]
      rfl
    rw [hpts]
    unfold specElevationPath specDeltas specScaledPoints
    dsimp only
    rw [List.map_zipWith, List.zipWith_map_left, List.zipWith_map_left,
      getD_pair_snd, List.nil_append]
  · refine ⟨(" " ++ String.intercalate " "
      ((specDeltas (specScaledPoints d inp)).map
        (fun s => "l " ++ ratStr s.1 ++ " " ++ ratStr s.2)) ++
      " l 0 " ++
      ratStr (-(((specScaledPoints d inp).getLast?.map Prod.snd).getD 0))).data, ?_⟩
    unfold specElevationPath
    simp [String.data_append, List.append_assoc]

theorem needs_render_false_elim (st : MapState) (w h : Nat) (c : Option GColor)
    (hn : needs_render st w h c = false) :
    st.href.isSome = true ∧ st.size = some (w, h) ∧ st.color = c := by
  unfold needs_render at hn
  simp only [Bool.or_eq_false_iff] at hn
  obtain ⟨⟨h1, h2⟩, h3⟩ := hn
  refine ⟨by simp [Option.isNone_eq_false_iff] at h1; simpa using h1, ?_, by simpa using h3⟩
  cases hs : st.size with
  | none => rw [hs] at h2; simp at h2
  | some wh =>
    rw [hs] at h2
    simp only [Bool.or_eq_false_iff] at h2
    obtain ⟨hw, hh⟩ := h2
    simp only [decide_eq_false_iff_not, not_not] at hw hh
    cases wh
    simp_all

/-- C8: the Context's memoized map asset obeys the cache contract: a
request repeating the cached pixel-size/color triple reuses the cached
asset without rebuilding, a request with a different triple replaces the
cached entry with one for the request's exact triple, and a returned
asset always corresponds to the request's triple — never a stale one. -/
theorem c8_image_memoization (render : RenderFn) (data : ContextData)
    (st : MapState) (k : String) (w h : Nat) (c : Option GColor)
    (hwf : MapWF render data.coords st) :
    ImageMemoSpec render data st k w h c := by
  refine ⟨?_, ?_, ?_, ?_⟩
  · intro s0 hsz hc hh
    have hn : needs_render st w h c = false := by
      unfold needs_render
      simp [hsz, hc, hh]
    refine ⟨hn, ?_⟩
    unfold get_image
    rw [hn]
    simp [hh]
  · intro hn
    unfold get_image build_map
    cases hr : render data.coords w h c with
    | none => simp [hn, hr]
    | some s => simp [hn, hr]
  · intro s hs
    by_cases hn : needs_render st w h c = true
    · unfold get_image build_map at hs
      simp only [hn, if_true, ite_true] at hs
      cases hr : render data.coords w h c with
      | none => simp [hr] at hs
      | some s2 =>
        simp only [hr] at hs
        by_cases hk : k = "image_map"
        · simp only [hk, if_true, ite_true] at hs
          simp only [Option.some.injEq] at hs
          exact ⟨hk, by simp [hr, hs]⟩
        · simp [hk] at hs
    · have hn' : needs_render st w h c = false := by simpa using hn
      obtain ⟨hhs, hsz, hc⟩ := needs_render_false_elim st w h c hn'
      unfold get_image at hs
      simp only [hn', Bool.false_eq_true, if_false, ite_false] at hs
      by_cases hk : k = "image_map"
      · simp only [hk, if_true, ite_true] at hs
        rcases hwf with hnone | ⟨w0, h0, s0, hsz0, hh0, hr0⟩
        · rw [hnone] at hs; simp at hs
        · rw [hh0] at hs
          simp only [Option.some.injEq] at hs
          rw [hsz0] at hsz
          simp only [Option.some.injEq, Prod.mk.injEq] at hsz
          refine ⟨hk, ?_⟩
          rw [← hsz.1, ← hsz.2, ← hc, hr0, hs]
      · simp [hk] at hs
  · by_cases hn : needs_render st w h c = true
    · unfold get_image build_map
      cases hr : render data.coords w h c with
      | none => simp only [hn, if_true, ite_true, hr]; simpa using hwf
      | some s =>
        simp only [hn, if_true, ite_true, hr]
        right
        exact ⟨w, h, s, rfl, rfl, hr⟩
    · have hn' : needs_render st w h c = false := by simpa using hn
      unfold get_image
      simp only [hn', Bool.false_eq_true, if_false, ite_false]
      simpa using hwf

theorem c8_image_memoization_witness :
    ImageMemoSpec (fun _ _ _ _ => some "asset")
      ⟨"t", 0, 0, 0, 0, 0, 0, 0, 0, [], 0, 99999, []⟩
      ⟨none, none, none⟩ "image_map" 2 3 none :=
  c8_image_memoization (fun _ _ _ _ => some "asset")
    ⟨"t", 0, 0, 0, 0, 0, 0, 0, 0, [], 0, 99999, []⟩
    ⟨none, none, none⟩ "image_map" 2 3 none (Or.inl rfl)

/-- C9 counterexample: in a style declaration whose `#` is followed by
ten contiguous hex digits, the claim's "first 6 or 8 contiguous hex
digits" (#00112233) exist, yet the code rejects the token entirely — it
takes the maximal run and accepts only length exactly 6 or 8. -/
theorem c9_counterexample :
    extract_hex_stroke_from_style "stroke:#00112233ab" = none ∧
    (("stroke:#00112233ab".data.drop 8).take 8).all isHexDig = true ∧
    (("stroke:#00112233ab".data.drop 8).take 8).length = 8 ∧
    extractTrackColor [XmlEvent.empty "path"
      [("id", "path_elevation"), ("style", "stroke:#00112233ab")]] = none :=
  ⟨by rfl, by decide, by decide, by rfl⟩

/-- C9 amended: a `stroke:` declaration inside a style attribute yields
`#` plus the maximal contiguous run of hex digits following `#`, accepted
only when that run is exactly 6 or 8 digits long (everything after the
run on the token is ignored); the stroke attribute is accepted only when
its entire value is such a token; nothing is returned otherwise. In
particular stroke="#22C55E" yields exactly that color and
style="fill:none;stroke:#2db192;stroke-width:1" yields the
case-insensitive equivalent of #2DB192. -/
theorem c9_color_extraction :
    (∀ style hex, extract_hex_stroke_from_style style = some hex →
      hex.data.head? = some '#' ∧ (hex.data.drop 1).all isHexDig = true ∧
        (hex.data.length = 7 ∨ hex.data.length = 9)) ∧
    extractTrackColor [XmlEvent.empty "path"
      [("id", "path_elevation"), ("d", "M0 0"), ("stroke", "#22C55E")]] =
      tryFromHex "#22C55E" ∧
    tryFromHex "#22C55E" = some ⟨34, 197, 94, 255⟩ ∧
    extractTrackColor [XmlEvent.empty "path"
      [("id", "path_elevation"),
       ("style", "fill:none;stroke:#2db192;stroke-width:1")]] =
      tryFromHex "#2DB192" ∧
    tryFromHex "#2DB192" = some ⟨45, 177, 146, 255⟩ := by
  refine ⟨?_, by rfl, by rfl, by rfl, by rfl⟩
  intro style hex h
  unfold extract_hex_stroke_from_style at h
  split at h
  · exact absurd h (by simp)
  · dsimp only at h
    split at h
    · split at h
      · rename_i idx hidx rest hrest hlen
        have hx : hex = "#" ++ String.mk (rest.takeWhile isHexDig) :=
          (Option.some.inj h).symm
        subst hx
        refine ⟨?_, ?_, ?_⟩
        · rw [String.data_append]
          rfl
        · rw [String.data_append]
          show (rest.takeWhile isHexDig).all isHexDig = true
          exact List.all_takeWhile
        · rw [String.data_append, List.length_append]
          simp only [Bool.or_eq_true, decide_eq_true_eq] at hlen
          rcases hlen with h6 | h8
          · left; show 1 + (rest.takeWhile isHexDig).length = 7; omega
          · right; show 1 + (rest.takeWhile isHexDig).length = 9; omega
      · exact absurd h (by simp)
    · exact absurd h (by simp)

theorem c9_color_extraction_witness :
    ("#abcdef" : String).data.head? = some '#' ∧
    (("#abcdef" : String).data.drop 1).all isHexDig = true ∧
    (("#abcdef" : String).data.length = 7 ∨ ("#abcdef" : String).data.length = 9) :=
  c9_color_extraction.1 "stroke:#abcdef" "#abcdef" (by rfl)

end Bicit
